import Mathlib

/-
Verification development for the spreadsheet analyzer (src/analyzer.py).

The module under inspection exposes one operation, Analyzer._ToCsv.normalize,
which converts every worksheet of every matched spreadsheet file of a source
directory into one comma-separated text file in a destination directory.

The shallow embedding below mirrors the Python source line by line:
  - cell values (openpyxl cell .value) become the inductive type Cell, where
    Cell.none models the Python value None of an empty cell;
  - the per-cell _cleanse lambda (lines 144-145) becomes cleanse;
  - the column filter and zip transposition (lines 151-153) become
    retainedCols, pyZip and cellMatrix;
  - the file-name construction (lines 149-150) becomes concatName, with the
    Python identity test modelled by pyIs;
  - the file-name regular expression _re_xls (line 43) applied through
    re.match (line 132) becomes reXlsAux / reXlsMatch;
  - directory preparation (lines 119-126) becomes prepareDest, the load loop
    (lines 130-136) becomes gather, the writing loop (lines 148-159) becomes
    writeAll, and the whole routine becomes normalize, acting on an abstract
    file-system state (SourceDir, Dest) and returning a RunResult that also
    records the exception, if one propagated, and the number of performed
    file writes.
-/

set_option maxHeartbeats 1000000

namespace Analyzer

/-- Value stored in one worksheet cell.  openpyxl hands back None for an empty
cell, a str for text, and int/float/datetime/bool for the other stored kinds;
the non-textual kinds are represented abstractly since normalize only ever
inspects whether a value is None (column filter) or a str (cleanse). -/
inductive Cell where
  | none
  | str (s : String)
  | int (n : Int)
  | date (d : Nat)
  | bool (b : Bool)
deriving DecidableEq

/-- ASCII whitespace characters removed by Python str.strip() (the Unicode
whitespace characters also stripped by Python are irrelevant to the inputs
considered here). -/
def isPyWS (c : Char) : Bool :=
  c == ' ' || c == '\t' || c == '\n' || c == '\r' ||
    c == Char.ofNat 11 || c == Char.ofNat 12

/-- Python v.replace of a newline by backslash-n, character by character
(line 144 of the source). -/
def replaceNL : List Char → List Char
  | [] => []
  | c :: cs => if c == '\n' then '\\' :: 'n' :: replaceNL cs else c :: replaceNL cs

/-- Removal of trailing whitespace: drop the whitespace front of the reversed
list (the right half of Python str.strip()). -/
def rstripChars (cs : List Char) : List Char :=
  (cs.reverse.dropWhile isPyWS).reverse

/-- Python str.strip(): leading whitespace dropped, then trailing whitespace
dropped. -/
def stripChars (cs : List Char) : List Char :=
  rstripChars (cs.dropWhile isPyWS)

/-- String-level wrapper of stripChars. -/
def pyStrip (s : String) : String := String.mk (stripChars s.data)

/-- String-level wrapper of replaceNL. -/
def pyReplaceNL (s : String) : String := String.mk (replaceNL s.data)

/-- The _cleanse lambda of lines 144-145 of the source:
v.replace of newline by backslash-n followed by .strip() when type(v) is str,
identity on every other value. -/
def cleanse : Cell → Cell
  | Cell.str s => Cell.str (pyStrip (pyReplaceNL s))
  | v => v

/-- Edge test used to state that a character list starts or ends with a
non-whitespace character (true on the empty list). -/
def okEdge : Option Char → Bool
  | some c => !isPyWS c
  | Option.none => true

/-- Both edges of a character list are free of whitespace. -/
def noEdgeWS (cs : List Char) : Bool :=
  okEdge cs.head? && okEdge cs.getLast?

/-- Column predicate of line 152 of the source:
any(c.value is not None for c in col). -/
def nonEmptyCol (col : List Cell) : Bool :=
  col.any (fun c => c != Cell.none)

/-- The filtered column list of lines 151-153: the worksheet columns that
contain at least one non-empty cell, in original order. -/
def retainedCols (cols : List (List Cell)) : List (List Cell) :=
  cols.filter nonEmptyCol

/-- Length of the shortest list of a list of lists, zero for the empty list;
this is the number of tuples Python zip produces. -/
def minLen : List (List Cell) → Nat
  | [] => 0
  | l :: ls => ls.foldl (fun acc x => min acc x.length) l.length

/-- Python zip(*ls): the i-th output row pairs the i-th element of every
input list, for i below the length of every input list; no rows when the
argument list is empty. -/
def pyZip (ls : List (List Cell)) : List (List Cell) :=
  (List.range (minLen ls)).map (fun i => ls.map (fun l => l.getD i Cell.none))

/-- The _cells matrix of lines 151-153: transpose, via zip, of the columns
retained by the non-empty filter. -/
def cellMatrix (cols : List (List Cell)) : List (List Cell) :=
  pyZip (retainedCols cols)

/-- The _contents value of lines 157-158: every cell of every transposed row
passed through _cleanse. -/
def wsRecords (cols : List (List Cell)) : List (List Cell) :=
  (cellMatrix cols).map (fun r => r.map cleanse)

/-- Field rendering performed by Python csv.writer: None becomes the empty
field, text is written as is (before quoting), numbers and booleans via str();
the payload of the abstract date kind is rendered through its index. -/
def renderCell : Cell → String
  | Cell.none => ""
  | Cell.str s => s
  | Cell.int n => toString n
  | Cell.date d => toString d
  | Cell.bool true => "True"
  | Cell.bool false => "False"

/-- QUOTE_MINIMAL test of the csv excel dialect: a field is quoted when it
holds the delimiter, the quote character or a line break. -/
def needsQuote (s : String) : Bool :=
  s.data.any (fun c => c == ',' || c == '"' || c == '\n' || c == '\r')

/-- Doubling of embedded quote characters inside a quoted csv field. -/
def dupQuotes : List Char → List Char
  | [] => []
  | c :: cs => if c == '"' then '"' :: '"' :: dupQuotes cs else c :: dupQuotes cs

/-- One csv field after minimal quoting. -/
def quoteField (s : String) : String :=
  if needsQuote s then "\"" ++ String.mk (dupQuotes s.data) ++ "\"" else s

/-- One csv record: comma-separated quoted fields, CRLF-terminated (the file
is opened with newline kept empty, so the writer emits its own CRLF). -/
def csvLine (r : List Cell) : String :=
  String.intercalate "," (r.map (fun c => quoteField (renderCell c))) ++ "\r\n"

/-- csv.writer(...).writerows over the record list (line 159). -/
def serialize (rows : List (List Cell)) : String :=
  String.join (rows.map csvLine)

/-- One atom of the _re_xls pattern (line 43): a dot, then x l s, then x or m,
checked at the head of a character list; trailing characters unconstrained
because re.match only anchors the start. -/
def xlsAt : List Char → Bool
  | p :: x :: l :: s :: c :: _ =>
      p == '.' && x == 'x' && l == 'l' && s == 's' && (c == 'x' || c == 'm')
  | _ => false

/-- re.match of the pattern dot-plus backslash-dot x l s bracket x m (line 43)
on a character list: at least one non-newline character must be consumed
before the dot-x-l-s atom is found. -/
def reXlsAux : List Char → Bool
  | [] => false
  | c :: cs => !(c == '\n') && (xlsAt cs || reXlsAux cs)

/-- The test of line 132: _re_xls.match applied to str(_p), the full path of
the directory entry. -/
def reXlsMatch (s : String) : Bool := reXlsAux s.data

/-- re.sub of the character class dollar-tilde by the empty string (line 134):
every dollar and tilde character of the path is deleted. -/
def stripLock (s : String) : String :=
  String.mk (s.data.filter (fun c => !(c == '$' || c == '~')))

/-- The base name of a path: the characters after the last slash. -/
def baseChars (cs : List Char) : List Char :=
  (cs.reverse.takeWhile (fun c => c != '/')).reverse

/-- pathlib Path(...).stem: base name with its last dot-suffix removed, the
whole base name when no dot follows the first character. -/
def stem (s : String) : String :=
  let b := baseChars s.data
  let rev := b.reverse
  let pre := rev.takeWhile (fun c => c != '.')
  if pre.length + 1 < b.length then String.mk ((rev.drop (pre.length + 1)).reverse)
  else String.mk b

/-- Python identity test of line 149 between _ws.title and _filename: the
title string is built by the workbook parser and the file stem by
Path(...).stem, two distinct heap objects that CPython never interns, so the
is-comparison of this call site is false for every pair of values. -/
def pyIs (a b : String) : Bool := false

/-- The _csv_ext constant (line 39). -/
def csvExt : String := ".csv"

/-- The _concat output file name of lines 149-150: the bare title when the
identity test succeeds, otherwise stem underscore title, then the csv
extension. -/
def concatName ( title fname : String) : String :=
  (if pyIs title fname then title else fname ++ "_" ++ title) ++ csvExt

/-- One worksheet: its title and its cell grid listed column by column, the
shape in which openpyxl ws.columns hands the grid to the filter of line 151. -/
structure Sheet where
  title : String
  cols : List (List Cell)
deriving DecidableEq

/-- One entry of the source directory: its name inside the directory, whether
it is a regular file, and the worksheets obtained were it opened as a
workbook. -/
structure DirEntry where
  name : String
  isFile : Bool
  sheets : List Sheet
deriving DecidableEq

/-- The source directory argument: the two Path predicates checked on
line 112, the path string (str of the Path), and the entries iterdir yields,
in directory order. -/
structure SourceDir where
  present : Bool
  isDir : Bool
  path : String
  entries : List DirEntry
deriving DecidableEq

/-- The destination directory state: whether the directory exists and the
files it holds, each a name paired with its byte content. -/
structure Dest where
  present : Bool
  files : List (String × String)
deriving DecidableEq

/-- The two exception kinds normalize can propagate: the module's
_InputException (line 235) raised by the validation of lines 112-115, and an
operating-system error from a file operation. -/
inductive Err where
  | inputException
  | osError
deriving DecidableEq

/-- Outcome of one normalize run: the destination state when the call
returned or the exception escaped, the escaped exception if any, and the
number of output files opened and written. -/
structure RunResult where
  dest : Dest
  err : Option Err
  writes : Nat
deriving DecidableEq

/-- Output file name of one gathered (worksheet, stem) pair. -/
def outName (p : Sheet × String) : String := concatName p.fst.title p.snd

/-- Output file content of one gathered (worksheet, stem) pair: the cleansed
transposed records, serialized by the csv writer. -/
def outContent (p : Sheet × String) : String := serialize (wsRecords p.fst.cols)

/-- Content of the named file of a directory listing, if present. -/
def lookupFile : List (String × String) → String → Option String
  | [], _ => Option.none
  | kv :: fs, k => if kv.fst == k then some kv.snd else lookupFile fs k

/-- Writing a file into a directory: any previous file of that name is
replaced. -/
def putFile (fs : List (String × String)) (nm c : String) : List (String × String) :=
  (nm, c) :: fs.filter (fun kv => kv.fst != nm)

/-- Folding the per-worksheet writes of the loop of lines 148-159 over a
directory listing. -/
def foldPut (fs : List (String × String)) : List (Sheet × String) → List (String × String)
  | [] => fs
  | p :: ps => foldPut (putFile fs (outName p) (outContent p)) ps

/-- Last content assigned to an output name by a pair list, if any; later
pairs take precedence, as later loop iterations overwrite earlier files. -/
def lastAssign : List (Sheet × String) → String → Option String
  | [], _ => Option.none
  | p :: ps, k =>
    match lastAssign ps k with
    | some v => some v
    | Option.none => if outName p == k then some (outContent p) else Option.none

/-- The entries the loop of lines 131-132 processes: regular files whose full
path string matches _re_xls from the start. -/
def matchedEntries (d : SourceDir) : List DirEntry :=
  d.entries.filter (fun e => e.isFile && reXlsMatch (d.path ++ "/" ++ e.name))

/-- Directory entry whose full path equals the given string, if any. -/
def lookupEntry (d : SourceDir) (p : String) : Option DirEntry :=
  d.entries.find? (fun e => d.path ++ "/" ++ e.name == p)

/-- load_workbook at a path: the sheets of the regular file living at that
path, or a failure when no such file exists (the code loads at the
dollar-tilde-stripped path, which need not be the matched entry's path). -/
def loadSheets (d : SourceDir) (p : String) : Option (List Sheet) :=
  match lookupEntry d p with
  | some e => if e.isFile then some e.sheets else Option.none
  | Option.none => Option.none

/-- The gathering loop of lines 130-136 over a list of matched entries: each
entry contributes the pairs (worksheet, stem of the stripped path) of the
workbook loaded at the stripped path; a failed load aborts the whole run. -/
def gatherList (d : SourceDir) : List DirEntry → Option (List (Sheet × String))
  | [] => some []
  | e :: es =>
    let nm := stripLock (d.path ++ "/" ++ e.name)
    match loadSheets d nm, gatherList d es with
    | some shs, some rest => some ((shs.map (fun ws => (ws, stem nm))) ++ rest)
    | _, _ => Option.none

/-- The _worksheets dictionary of lines 130-136 as an ordered pair list; the
dictionary keys are worksheet objects, always distinct, so no insertion ever
collapses with an earlier one. -/
def gather (d : SourceDir) : Option (List (Sheet × String)) :=
  gatherList d (matchedEntries d)

/-- The destination preparation of lines 119-126: nothing happens when the
directory exists; otherwise os.makedirs creates it empty, and when the
overwrite flag is set the loop removes its (zero) files and os.rmdir then
deletes the directory just created. -/
def prepareDest (dest : Dest) (ov : Bool) : Dest :=
  if !dest.present then
    if ov then { present := false, files := [] }
    else { present := true, files := [] }
  else dest

/-- The writing loop of lines 148-159: for each gathered pair, open the
output file inside the destination directory and write the serialized
records; opening fails with an operating-system error when the destination
directory does not exist, aborting the loop. -/
def writeAll : Dest → Nat → List (Sheet × String) → RunResult
  | dest, n, [] => { dest := dest, err := Option.none, writes := n }
  | dest, n, p :: ps =>
    if dest.present then
      writeAll { present := true,
                 files := putFile dest.files (outName p) (outContent p) } (n + 1) ps
    else { dest := dest, err := some Err.osError, writes := n }

/-- Analyzer._ToCsv.normalize (lines 102-162): validate the source directory
(line 112), prepare the destination (lines 119-126), gather every worksheet
of every matched file (lines 130-136), then write one csv file per gathered
worksheet (lines 148-159). -/
def normalize (src : SourceDir) (dest : Dest) (ov : Bool) : RunResult :=
  if !src.isDir || !src.present then
    { dest := dest, err := some Err.inputException, writes := 0 }
  else
    let dest1 := prepareDest dest ov
    match gather src with
    | Option.none => { dest := dest1, err := some Err.osError, writes := 0 }
    | some pairs => writeAll dest1 0 pairs

/-- Suffix test on character lists, used only by the spec-side selection
predicate below. -/
def listIsSfx (cs sfx : List Char) : Bool :=
  cs.reverse.take sfx.length == sfx.reverse

/-- Head test on character lists, used only by the spec-side selection
predicate below. -/
def headIs (cs : List Char) (c : Char) : Bool := cs.head? == some c

/-- Selection predicate written from the words of the specification, for
comparison with the code's matchedEntries: a regular file whose name ends in
the xlsx or xlsm extension and does not start with a dollar or tilde
lock-file marker. -/
def specSelects (e : DirEntry) : Bool :=
  e.isFile &&
    (listIsSfx e.name.data ".xlsx".data || listIsSfx e.name.data ".xlsm".data) &&
    !(headIs e.name.data '$' || headIs e.name.data '~')

/-- Worksheet count over the matched entries of a source directory, as the
claims phrase it. -/
def totalSheets (d : SourceDir) : Nat :=
  ((matchedEntries d).map (fun e => e.sheets.length)).sum

/-- Concrete worksheet used by collision examples: title C, one textual
cell. -/
def sheetC : Sheet := { title := "C", cols := [[Cell.str "v"]] }

/-- Concrete worksheet used by collision examples: title B underscore C, one
textual cell. -/
def sheetBC : Sheet := { title := "B_C", cols := [[Cell.str "w"]] }

/-- Source directory holding A underscore B dot xlsx (sheet C) and A dot xlsx
(sheet B underscore C): two worksheets whose output names coincide. -/
def srcCollide : SourceDir :=
  { present := true, isDir := true, path := "in",
    entries := [ { name := "A_B.xlsx", isFile := true, sheets := [sheetC] },
                 { name := "A.xlsx", isFile := true, sheets := [sheetBC] } ] }

/-- Concrete worksheet with a single textual cell, used by witnesses. -/
def sheetS : Sheet := { title := "S", cols := [[Cell.str "x"]] }

/-- Source directory holding one workbook with the single worksheet sheetS. -/
def srcOne : SourceDir :=
  { present := true, isDir := true, path := "in",
    entries := [ { name := "b.xlsx", isFile := true, sheets := [sheetS] } ] }

/-- An Excel lock-file entry: regular file whose name starts with
tilde-dollar. -/
def lockEntry : DirEntry := { name := "~$a.xlsx", isFile := true, sheets := [] }

/-- Source directory holding only the lock-file entry. -/
def srcLock : SourceDir :=
  { present := true, isDir := true, path := "in", entries := [lockEntry] }

/-- Concrete column grid used by witnesses: an all-empty column followed by a
column with one textual cell. -/
def colsEx : List (List Cell) := [[Cell.none], [Cell.str "a"]]

/-- A source path that neither exists nor is a directory. -/
def srcMissing : SourceDir :=
  { present := false, isDir := false, path := "missing", entries := [] }

/-- A valid source directory with no entries. -/
def srcEmptyDir : SourceDir :=
  { present := true, isDir := true, path := "src", entries := [] }

/-- An existing destination directory holding one stale file. -/
def staleDest : Dest := { present := true, files := [("stale.csv", "old")] }

/-- Head of a dropWhile result never satisfies the dropped predicate. -/
theorem head_dropWhile_false (p : Char → Bool) (l : List Char) (a : Char)
    (h : (l.dropWhile p).head? = some a) : p a = false := by
  induction l with
  | nil => simp [List.dropWhile] at h
  | cons x xs ih =>
    rw [List.dropWhile_cons] at h
    by_cases hp : p x
    · exact ih (by simpa [hp] using h)
    · rw [if_neg hp] at h
      have hx : x = a := by simpa using h
      rw [← hx]
      simpa using hp

/-- dropWhile keeps the last element when its result is non-empty. -/
theorem getLast_dropWhile (p : Char → Bool) (l : List Char) (h : l.dropWhile p ≠ []) :
    (l.dropWhile p).getLast? = l.getLast? := by
  induction l with
  | nil => simp [List.dropWhile] at h
  | cons x xs ih =>
    rw [List.dropWhile_cons] at h ⊢
    by_cases hp : p x
    · simp only [hp, if_true] at h ⊢
      rw [ih h]
      have hxs : xs ≠ [] := by
        intro he
        subst he
        simp [List.dropWhile] at h
      cases xs with
      | nil => exact absurd rfl hxs
      | cons y ys => rw [List.getLast?_cons_cons]
    · simp [hp]

/-- The replaced character list holds no literal newline. -/
theorem replaceNL_no_nl (cs : List Char) : '\n' ∉ replaceNL cs := by
  induction cs with
  | nil => simp [replaceNL]
  | cons c cs ih =>
    by_cases h : c == '\n'
    · rw [replaceNL, if_pos h]
      intro hm
      rcases List.mem_cons.mp hm with h1 | hm2
      · exact absurd h1 (by decide)
      rcases List.mem_cons.mp hm2 with h2 | hm3
      · exact absurd h2 (by decide)
      · exact ih hm3
    · rw [replaceNL, if_neg h]
      intro hm
      rcases List.mem_cons.mp hm with h1 | hm2
      · exact h (by rw [← h1]; rfl)
      · exact ih hm2

/-- Stripping only removes characters. -/
theorem stripChars_mem (c : Char) (cs : List Char) (h : c ∈ stripChars cs) : c ∈ cs := by
  unfold stripChars rstripChars at h
  rw [List.mem_reverse] at h
  replace h := (List.dropWhile_sublist isPyWS).subset h
  rw [List.mem_reverse] at h
  exact (List.dropWhile_sublist isPyWS).subset h

/-- A stripped character list neither starts nor ends with whitespace. -/
theorem stripChars_noEdge (cs : List Char) : noEdgeWS (stripChars cs) = true := by
  unfold noEdgeWS
  rw [Bool.and_eq_true]
  constructor
  · unfold stripChars rstripChars
    rw [List.head?_reverse]
    by_cases hD : ((List.dropWhile isPyWS cs).reverse).dropWhile isPyWS = []
    · rw [hD]
      rfl
    · rw [getLast_dropWhile _ _ hD, List.getLast?_reverse]
      cases hH : (List.dropWhile isPyWS cs).head? with
      | none => rfl
      | some a =>
        have := head_dropWhile_false isPyWS cs a hH
        simp [okEdge, this]
  · unfold stripChars rstripChars
    rw [List.getLast?_reverse]
    cases hH : (((List.dropWhile isPyWS cs).reverse).dropWhile isPyWS).head? with
    | none => rfl
    | some a =>
      have := head_dropWhile_false isPyWS (List.dropWhile isPyWS cs).reverse a hH
      simp [okEdge, this]

/-- C2: cleanse applies replace-newline-by-backslash-n followed by strip to a
textual value, so the result holds no literal newline and no leading or
trailing whitespace; the sample cell with an embedded newline becomes the
literal backslash-n text; every non-textual value (empty, number, date,
boolean) passes through unchanged. -/
theorem cleanse_spec (s : String) (n : Int) (d : Nat) (b : Bool) :
    cleanse (Cell.str s) = Cell.str (pyStrip (pyReplaceNL s)) ∧
    '\n' ∉ (pyStrip (pyReplaceNL s)).data ∧
    noEdgeWS (pyStrip (pyReplaceNL s)).data = true ∧
    cleanse (Cell.str "line1\nline2") = Cell.str "line1\\nline2" ∧
    cleanse Cell.none = Cell.none ∧ cleanse (Cell.int n) = Cell.int n ∧
    cleanse (Cell.date d) = Cell.date d ∧ cleanse (Cell.bool b) = Cell.bool b := by
  refine ⟨rfl, ?_, ?_, ?_, rfl, rfl, rfl, rfl⟩
  · intro hm
    exact replaceNL_no_nl s.data (stripChars_mem _ _ hm)
  · exact stripChars_noEdge _
  · decide

/-- Witness: cleanse_spec at a concrete cell with inner newline and edge
whitespace, and at concrete non-textual values. -/
theorem cleanse_spec_witness :
    cleanse (Cell.str "  a\nb ") = Cell.str (pyStrip (pyReplaceNL "  a\nb ")) ∧
    '\n' ∉ (pyStrip (pyReplaceNL "  a\nb ")).data ∧
    noEdgeWS (pyStrip (pyReplaceNL "  a\nb ")).data = true ∧
    cleanse (Cell.str "line1\nline2") = Cell.str "line1\\nline2" ∧
    cleanse Cell.none = Cell.none ∧ cleanse (Cell.int 3) = Cell.int 3 ∧
    cleanse (Cell.date 5) = Cell.date 5 ∧ cleanse (Cell.bool true) = Cell.bool true :=
  cleanse_spec "  a\nb " 3 5 true

/-- C1: a column of the worksheet is kept by the filter of line 151 exactly
when one of its cells is non-empty, the kept columns form a sublist of the
original column list (relative order preserved), the i-th transposed record
lists the i-th cell of every retained column in column order (an empty cell
thus occupies its own row position), and an empty cell is rendered as the
empty field. -/
theorem column_filter_spec (cols : List (List Cell)) (col : List Cell) (i : Nat) :
    (nonEmptyCol col = true ↔ ∃ x ∈ col, x ≠ Cell.none) ∧
    (col ∈ retainedCols cols ↔ col ∈ cols ∧ nonEmptyCol col = true) ∧
    List.Sublist (retainedCols cols) cols ∧
    ((cellMatrix cols)[i]? = if i < minLen (retainedCols cols)
      then some ((retainedCols cols).map (fun c => c.getD i Cell.none))
      else Option.none) ∧
    renderCell (cleanse Cell.none) = "" := by
  refine ⟨?_, ?_, List.filter_sublist _, ?_, rfl⟩
  · simp [nonEmptyCol, List.any_eq_true, bne_iff_ne]
  · simp [retainedCols, List.mem_filter]
  · unfold cellMatrix pyZip
    by_cases h : i < minLen (retainedCols cols)
    · rw [if_pos h, List.getElem?_map, List.getElem?_range h]
      rfl
    · rw [if_neg h]
      apply List.getElem?_eq_none
      simpa using Nat.le_of_not_lt h

/-- Witness: column_filter_spec at the concrete grid with one empty and one
non-empty column. -/
theorem column_filter_spec_witness :
    (nonEmptyCol [Cell.str "a"] = true ↔ ∃ x ∈ [Cell.str "a"], x ≠ Cell.none) ∧
    ([Cell.str "a"] ∈ retainedCols colsEx ↔
      [Cell.str "a"] ∈ colsEx ∧ nonEmptyCol [Cell.str "a"] = true) ∧
    List.Sublist (retainedCols colsEx) colsEx ∧
    ((cellMatrix colsEx)[0]? = if 0 < minLen (retainedCols colsEx)
      then some ((retainedCols colsEx).map (fun c => c.getD 0 Cell.none))
      else Option.none) ∧
    renderCell (cleanse Cell.none) = "" :=
  column_filter_spec colsEx [Cell.str "a"] 0

/-- C5: when a worksheet has at least one non-empty column, every written
record has the same field count, the number of non-empty columns. -/
theorem records_rectangular (cols : List (List Cell))
    (h : ∃ col ∈ cols, nonEmptyCol col = true) :
    ∀ row ∈ wsRecords cols, row.length = cols.countP (fun c => nonEmptyCol c) := by
  intro row hrow
  unfold wsRecords at hrow
  obtain ⟨r, hr, rfl⟩ := List.mem_map.mp hrow
  unfold cellMatrix pyZip at hr
  obtain ⟨j, hj, rfl⟩ := List.mem_map.mp hr
  rw [List.length_map, List.length_map, List.countP_eq_length_filter]
  rfl

/-- Witness: records_rectangular at the concrete two-column grid. -/
theorem records_rectangular_witness :
    (∃ col ∈ colsEx, nonEmptyCol col = true) ∧
    ∀ row ∈ wsRecords colsEx, row.length = colsEx.countP (fun c => nonEmptyCol c) :=
  ⟨by decide, records_rectangular colsEx (by decide)⟩

/-- C4 (code bug): line 149 compares the worksheet title and the file stem
with the Python identity operator, which is false for these two distinct
string objects even when their contents are equal, so a worksheet titled
exactly like its file stem still yields the underscored output name rather
than the bare one; titles that differ from the stem yield the underscored
name, as documented. -/
theorem naming_identity :
    concatName "Sheet1" "Sheet1" = "Sheet1_Sheet1.csv" ∧
    concatName "Sheet1" "Sheet1" ≠ "Sheet1.csv" ∧
    concatName "Alpha" "Sheet1" = "Sheet1_Alpha.csv" := by
  refine ⟨rfl, ?_, rfl⟩
  decide

/-- The dot-x-l-s atom holds exactly on lists starting with dot, x, l, s and
then x or m. -/
theorem xlsAt_iff (cs : List Char) :
    xlsAt cs = true ↔
      ∃ c b, cs = '.' :: 'x' :: 'l' :: 's' :: c :: b ∧ (c = 'x' ∨ c = 'm') := by
  rcases cs with _ | ⟨c0, _ | ⟨c1, _ | ⟨c2, _ | ⟨c3, _ | ⟨c4, rest⟩⟩⟩⟩⟩
  · simp [xlsAt]
  · simp [xlsAt]
  · simp [xlsAt]
  · simp [xlsAt]
  · simp [xlsAt]
  · constructor
    · intro h
      simp only [xlsAt, Bool.and_eq_true, Bool.or_eq_true, beq_iff_eq] at h
      obtain ⟨⟨⟨⟨h0, h1⟩, h2⟩, h3⟩, h4⟩ := h
      subst h0; subst h1; subst h2; subst h3
      exact ⟨c4, rest, rfl, h4⟩
    · rintro ⟨c, b, heq, hc⟩
      simp only [List.cons.injEq] at heq
      obtain ⟨e0, e1, e2, e3, e4, e5⟩ := heq
      subst e0; subst e1; subst e2; subst e3; subst e4; subst e5
      rcases hc with rfl | rfl <;> rfl

/-- The full pattern of line 43 matched from the start of a character list:
at least one non-newline character, then the dot-x-l-s atom, then anything. -/
theorem reXlsAux_iff (cs : List Char) :
    reXlsAux cs = true ↔
      ∃ a c b, cs = a ++ '.' :: 'x' :: 'l' :: 's' :: c :: b ∧
        a ≠ [] ∧ '\n' ∉ a ∧ (c = 'x' ∨ c = 'm') := by
  induction cs with
  | nil =>
    simp only [reXlsAux, Bool.false_eq_true, false_iff]
    rintro ⟨a, c, b, heq, ha, -, -⟩
    rcases a with _ | ⟨a0, a'⟩
    · exact ha rfl
    · exact absurd heq (by simp)
  | cons d cs ih =>
    constructor
    · intro h
      simp only [reXlsAux, Bool.and_eq_true, Bool.or_eq_true, Bool.not_eq_true',
        beq_eq_false_iff_ne] at h
      obtain ⟨hd, hx | hr⟩ := h
      · obtain ⟨c, b, rfl, hc⟩ := (xlsAt_iff cs).mp hx
        refine ⟨[d], c, b, rfl, by simp, ?_, hc⟩
        intro hm
        rcases List.mem_cons.mp hm with h1 | h2
        · exact hd h1.symm
        · simp at h2
      · obtain ⟨a, c, b, heq, ha, hnl, hc⟩ := ih.mp hr
        refine ⟨d :: a, c, b, by rw [List.cons_append, heq], by simp, ?_, hc⟩
        intro hm
        rcases List.mem_cons.mp hm with h1 | h2
        · exact hd h1.symm
        · exact hnl h2
    · rintro ⟨a, c, b, heq, ha, hnl, hc⟩
      rcases a with _ | ⟨a0, a'⟩
      · exact absurd rfl ha
      · simp only [List.cons_append, List.cons.injEq] at heq
        obtain ⟨rfl, heq2⟩ := heq
        simp only [reXlsAux, Bool.and_eq_true, Bool.or_eq_true, Bool.not_eq_true',
          beq_eq_false_iff_ne]
        refine ⟨?_, ?_⟩
        · intro hdn
          rw [hdn] at hnl
          exact hnl (List.mem_cons_self _ _)
        · rcases a' with _ | ⟨a1, a''⟩
          · left
            exact (xlsAt_iff cs).mpr ⟨c, b, by simpa using heq2, hc⟩
          · right
            refine ih.mpr ⟨a1 :: a'', c, b, by simpa using heq2, by simp, ?_, hc⟩
            intro hm
            exact hnl (List.mem_cons_of_mem _ hm)

/-- C6 counterexample: the Excel lock file tilde-dollar-a.xlsx is a regular
file that the claim excludes, yet the code's matcher selects it. -/
theorem lock_file_selected :
    matchedEntries srcLock = [lockEntry] ∧ specSelects lockEntry = false ∧
    lockEntry.isFile = true := by
  refine ⟨rfl, rfl, rfl⟩

/-- C6 amended: an entry is processed iff it is a regular file whose full
path string matches the pattern of line 43 from the start — at least one
non-newline character followed by dot x l s then x or m, with arbitrary
trailing characters — so neither an end anchor nor a lock-file-name exclusion
is applied; the dollar and tilde characters are instead deleted from the path
the workbook is loaded from. -/
theorem selection_characterization (d : SourceDir) (e : DirEntry) (cs : List Char) :
    (e ∈ matchedEntries d ↔
      e ∈ d.entries ∧ (e.isFile && reXlsMatch (d.path ++ "/" ++ e.name)) = true) ∧
    (reXlsAux cs = true ↔
      ∃ a c b, cs = a ++ '.' :: 'x' :: 'l' :: 's' :: c :: b ∧
        a ≠ [] ∧ '\n' ∉ a ∧ (c = 'x' ∨ c = 'm')) ∧
    reXlsMatch "in/a.xlsx.bak" = true ∧
    reXlsMatch "in/a.txt" = false ∧
    stripLock "in/~$a.xlsx" = "in/a.xlsx" := by
  refine ⟨?_, reXlsAux_iff cs, rfl, rfl, rfl⟩
  unfold matchedEntries
  exact List.mem_filter

/-- Witness: selection_characterization at the lock-file directory and a
concrete character list. -/
theorem selection_characterization_witness :
    (lockEntry ∈ matchedEntries srcLock ↔
      lockEntry ∈ srcLock.entries ∧
        (lockEntry.isFile && reXlsMatch (srcLock.path ++ "/" ++ lockEntry.name)) = true) ∧
    (reXlsAux "a.xlsm".data = true ↔
      ∃ a c b, "a.xlsm".data = a ++ '.' :: 'x' :: 'l' :: 's' :: c :: b ∧
        a ≠ [] ∧ '\n' ∉ a ∧ (c = 'x' ∨ c = 'm')) ∧
    reXlsMatch "in/a.xlsx.bak" = true ∧
    reXlsMatch "in/a.txt" = false ∧
    stripLock "in/~$a.xlsx" = "in/a.xlsx" :=
  selection_characterization srcLock lockEntry "a.xlsm".data

/-- A lookup that avoids the written name passes through the filter inside
putFile. -/
theorem lookupFile_filter_ne (fs : List (String × String)) (nm k : String)
    (h : nm ≠ k) :
    lookupFile (fs.filter (fun kv => kv.fst != nm)) k = lookupFile fs k := by
  induction fs with
  | nil => rfl
  | cons kv fs ih =>
    rw [List.filter_cons]
    cases hbeq : kv.fst == nm with
    | true =>
      have hne : (kv.fst == k) = false := by
        rw [beq_eq_false_iff_ne]
        intro he
        exact h ((eq_of_beq hbeq) ▸ he)
      have hcond : (kv.fst != nm) = false := by simp [bne, hbeq]
      simp only [hcond, Bool.false_eq_true, if_false]
      rw [ih, lookupFile, hne]
      simp
    | false =>
      have hcond : (kv.fst != nm) = true := by simp [bne, hbeq]
      simp only [hcond, if_true]
      rw [lookupFile, lookupFile]
      cases hk2 : kv.fst == k with
      | true => simp
      | false =>
        simp only [hk2, Bool.false_eq_true, if_false]
        exact ih

/-- Lookup after one file write: the written name maps to the written
content, every other name is unaffected. -/
theorem lookupFile_putFile (fs : List (String × String)) (nm c k : String) :
    lookupFile (putFile fs nm c) k = if nm == k then some c else lookupFile fs k := by
  unfold putFile
  rw [lookupFile]
  cases hbeq : nm == k with
  | true => simp
  | false =>
    simp only [Bool.false_eq_true, if_false]
    exact lookupFile_filter_ne fs nm k (ne_of_beq_false hbeq)

/-- The writing loop on an existing destination performs one write per pair,
raises nothing, and folds the writes over the directory listing. -/
theorem writeAll_present (ps : List (Sheet × String)) :
    ∀ (fs : List (String × String)) (n : Nat),
      writeAll { present := true, files := fs } n ps =
        { dest := { present := true, files := foldPut fs ps },
          err := Option.none, writes := n + ps.length } := by
  induction ps with
  | nil => intro fs n; rfl
  | cons p ps ih =>
    intro fs n
    rw [writeAll]
    simp only [if_true]
    rw [ih]
    simp only [foldPut, List.length_cons, RunResult.mk.injEq, Dest.mk.injEq,
      true_and, and_true]
    omega

/-- Lookup after folding the writes: the last pair assigned to a name wins,
and names never written keep their prior content. -/
theorem lookupFile_foldPut (ps : List (Sheet × String)) :
    ∀ (fs : List (String × String)) (k : String),
      lookupFile (foldPut fs ps) k =
        match lastAssign ps k with
        | some v => some v
        | Option.none => lookupFile fs k := by
  induction ps with
  | nil => intro fs k; rfl
  | cons p ps ih =>
    intro fs k
    rw [foldPut, ih, lookupFile_putFile, lastAssign]
    cases h : lastAssign ps k with
    | some v => rfl
    | none => cases hbeq : outName p == k <;> simp

/-- A name receives an assignment from a pair list exactly when it is among
the generated output names. -/
theorem lastAssign_mem_iff (ps : List (Sheet × String)) (k : String) :
    lastAssign ps k ≠ Option.none ↔ k ∈ ps.map outName := by
  induction ps with
  | nil => simp [lastAssign]
  | cons p ps ih =>
    rw [lastAssign, List.map_cons]
    cases h : lastAssign ps k with
    | some v =>
      have hk : k ∈ ps.map outName := ih.mp (by rw [h]; exact Option.some_ne_none v)
      simp [List.mem_cons, hk]
    | none =>
      have hmem : k ∉ ps.map outName := by rw [← ih]; simp [h]
      cases hbeq : outName p == k with
      | true =>
        have he : outName p = k := eq_of_beq hbeq
        simp [List.mem_cons, he.symm]
      | false =>
        have he : outName p ≠ k := ne_of_beq_false hbeq
        simp only [Bool.false_eq_true, if_false, List.mem_cons]
        constructor
        · intro hn
          exact absurd rfl hn
        · rintro (h1 | h2)
          · exact absurd h1.symm he
          · exact absurd h2 hmem

/-- When the destination exists beforehand, lines 119-126 leave it alone,
whatever the overwrite flag says. -/
theorem prepareDest_present (dest : Dest) (ov : Bool) (h : dest.present = true) :
    prepareDest dest ov = dest := by
  unfold prepareDest
  rw [h]
  rfl

/-- A validated source reduces normalize to destination preparation, the
gather phase and the writing loop. -/
theorem normalize_valid (src : SourceDir) (dest : Dest) (ov : Bool)
    (h1 : src.present = true) (h2 : src.isDir = true) :
    normalize src dest ov =
      match gather src with
      | Option.none =>
          { dest := prepareDest dest ov, err := some Err.osError, writes := 0 }
      | some pairs => writeAll (prepareDest dest ov) 0 pairs := by
  unfold normalize
  rw [h1, h2]
  rfl

/-- C7: a source path that is missing or is not a directory makes normalize
fail with the module's input exception before anything else happens: the
destination state is returned exactly as it was and no file write occurs. -/
theorem invalid_source_rejected (src : SourceDir) (dest : Dest) (ov : Bool)
    (h : src.isDir = false ∨ src.present = false) :
    normalize src dest ov =
      { dest := dest, err := some Err.inputException, writes := 0 } := by
  unfold normalize
  rcases h with h | h <;> rw [h] <;> simp

/-- Witness: invalid_source_rejected at the missing source path and an
existing destination holding a file. -/
theorem invalid_source_rejected_witness :
    (srcMissing.isDir = false ∨ srcMissing.present = false) ∧
    normalize srcMissing { present := true, files := [("keep.csv", "k")] } true =
      { dest := { present := true, files := [("keep.csv", "k")] },
        err := some Err.inputException, writes := 0 } :=
  ⟨Or.inl rfl,
    invalid_source_rejected srcMissing
      { present := true, files := [("keep.csv", "k")] } true (Or.inl rfl)⟩

/-- C3 (code bug): the purge branch of lines 122-125 sits inside the branch
taken only when the destination does not exist, so a destination that already
exists is never emptied: with the overwrite flag set and a stale file in
place, normalize on an empty source returns with the stale file intact,
contradicting the docstring of the overwrite parameter. -/
theorem existing_dest_not_purged :
    prepareDest staleDest true = staleDest ∧
    normalize srcEmptyDir staleDest true =
      { dest := staleDest, err := Option.none, writes := 0 } ∧
    staleDest.files = [("stale.csv", "old")] := by
  refine ⟨rfl, rfl, rfl⟩

/-- C10: when the destination is absent and the overwrite flag is set,
lines 119-126 create the directory and remove it again at once, so a run
that gathered at least one worksheet fails with an operating-system error at
the first output-file open, and no output file is produced. -/
theorem create_then_remove (src : SourceDir) (dest : Dest) (p : Sheet × String)
    (ps : List (Sheet × String)) (h1 : src.present = true) (h2 : src.isDir = true)
    (h3 : dest.present = false) (hg : gather src = some (p :: ps)) :
    prepareDest dest true = { present := false, files := [] } ∧
    normalize src dest true =
      { dest := { present := false, files := [] },
        err := some Err.osError, writes := 0 } := by
  have hp : prepareDest dest true = { present := false, files := [] } := by
    unfold prepareDest
    rw [h3]
    rfl
  refine ⟨hp, ?_⟩
  rw [normalize_valid src dest true h1 h2, hg, hp]
  rfl

/-- Witness: create_then_remove at the one-worksheet source and an absent
destination. -/
theorem create_then_remove_witness :
    (srcOne.present = true ∧ srcOne.isDir = true ∧
      ({ present := false, files := [] } : Dest).present = false ∧
      gather srcOne = some [(sheetS, "b")]) ∧
    prepareDest { present := false, files := [] } true =
      { present := false, files := [] } ∧
    normalize srcOne { present := false, files := [] } true =
      { dest := { present := false, files := [] },
        err := some Err.osError, writes := 0 } :=
  ⟨⟨rfl, rfl, rfl, rfl⟩,
    create_then_remove srcOne { present := false, files := [] } (sheetS, "b") []
      rfl rfl rfl rfl⟩

/-- C8 counterexample: the source with files A underscore B dot xlsx (sheet
C) and A dot xlsx (sheet B underscore C) has two worksheets, normalize opens
and writes twice, yet both writes target the single name A underscore B
underscore C dot csv, so only one output file is produced. -/
theorem collision_fewer_files :
    totalSheets srcCollide = 2 ∧
    (normalize srcCollide { present := true, files := [] } false).writes = 2 ∧
    (normalize srcCollide { present := true, files := [] } false).dest.files.map
      Prod.fst = ["A_B_C.csv"] ∧
    (normalize srcCollide { present := true, files := [] } false).dest.files.length
      = 1 := by
  refine ⟨rfl, rfl, rfl, rfl⟩

/-- C8 amended: on an existing destination, normalize performs exactly one
file write per gathered worksheet and raises nothing, but the set of output
files is the set of generated names together with the pre-existing files, so
the file count equals the number of distinct generated names, which can be
smaller than the worksheet count when stem-underscore-title combinations
collide across workbooks (the later worksheet overwrites the earlier one). -/
theorem one_write_per_worksheet (src : SourceDir) (dest : Dest) (ov : Bool)
    (ps : List (Sheet × String)) (h1 : src.present = true) (h2 : src.isDir = true)
    (hd : dest.present = true) (hg : gather src = some ps) :
    (normalize src dest ov).writes = ps.length ∧
    (normalize src dest ov).err = Option.none ∧
    ∀ k, (lookupFile (normalize src dest ov).dest.files k ≠ Option.none ↔
      (k ∈ ps.map outName ∨ lookupFile dest.files k ≠ Option.none)) := by
  obtain ⟨dp, fs⟩ := dest
  cases hd
  have hrun : normalize src { present := true, files := fs } ov =
      { dest := { present := true, files := foldPut fs ps },
        err := Option.none, writes := ps.length } := by
    rw [normalize_valid _ _ _ h1 h2, hg,
      prepareDest_present { present := true, files := fs } ov rfl]
    exact (writeAll_present ps fs 0).trans (by rw [Nat.zero_add])
  rw [hrun]
  refine ⟨rfl, rfl, ?_⟩
  intro k
  rw [lookupFile_foldPut]
  cases h : lastAssign ps k with
  | some v =>
    have hk : k ∈ ps.map outName :=
      (lastAssign_mem_iff ps k).mp (by rw [h]; exact Option.some_ne_none v)
    simp [hk]
  | none =>
    have hk : k ∉ ps.map outName := by
      rw [← lastAssign_mem_iff]
      simp [h]
    simp [hk]

/-- Witness: one_write_per_worksheet at the one-worksheet source and an
existing empty destination. -/
theorem one_write_per_worksheet_witness :
    (srcOne.present = true ∧ srcOne.isDir = true ∧
      ({ present := true, files := [] } : Dest).present = true ∧
      gather srcOne = some [(sheetS, "b")]) ∧
    (normalize srcOne { present := true, files := [] } false).writes
      = [(sheetS, "b")].length ∧
    (normalize srcOne { present := true, files := [] } false).err = Option.none ∧
    ∀ k, (lookupFile (normalize srcOne { present := true, files := [] } false).dest.files
        k ≠ Option.none ↔
      (k ∈ [(sheetS, "b")].map outName ∨
        lookupFile ({ present := true, files := [] } : Dest).files k ≠ Option.none)) :=
  ⟨⟨rfl, rfl, rfl, rfl⟩,
    one_write_per_worksheet srcOne { present := true, files := [] } false
      [(sheetS, "b")] rfl rfl rfl rfl⟩

/-- C9 counterexample: with the overwrite flag set and an absent destination,
the first run on the unchanged one-worksheet source fails with an
operating-system error producing no file, and so does the second run, so
neither run succeeds nor are byte-identical outputs produced. -/
theorem overwrite_two_runs_fail :
    (normalize srcOne { present := false, files := [] } true).err
      = some Err.osError ∧
    (normalize srcOne { present := false, files := [] } true).dest.files = [] ∧
    (normalize srcOne
        (normalize srcOne { present := false, files := [] } true).dest true).err
      = some Err.osError ∧
    (normalize srcOne
        (normalize srcOne { present := false, files := [] } true).dest
        true).dest.files = [] := by
  refine ⟨rfl, rfl, rfl, rfl⟩

/-- C9 amended: provided the destination directory already exists when the
first run starts, running normalize twice with the overwrite flag on the
same unchanged source succeeds both times and the directory listing after
the second run maps every file name to exactly the content it had after the
first run (byte-identical outputs). -/
theorem rerun_identical_when_dest_present (src : SourceDir) (dest : Dest)
    (ps : List (Sheet × String)) (h1 : src.present = true) (h2 : src.isDir = true)
    (hd : dest.present = true) (hg : gather src = some ps) :
    (normalize src dest true).err = Option.none ∧
    (normalize src (normalize src dest true).dest true).err = Option.none ∧
    ∀ k, lookupFile (normalize src (normalize src dest true).dest true).dest.files k
        = lookupFile (normalize src dest true).dest.files k := by
  obtain ⟨dp, fs⟩ := dest
  cases hd
  have hrun1 : normalize src { present := true, files := fs } true =
      { dest := { present := true, files := foldPut fs ps },
        err := Option.none, writes := ps.length } := by
    rw [normalize_valid _ _ _ h1 h2, hg,
      prepareDest_present { present := true, files := fs } true rfl]
    exact (writeAll_present ps fs 0).trans (by rw [Nat.zero_add])
  have hrun2 : normalize src { present := true, files := foldPut fs ps } true =
      { dest := { present := true, files := foldPut (foldPut fs ps) ps },
        err := Option.none, writes := ps.length } := by
    rw [normalize_valid _ _ _ h1 h2, hg,
      prepareDest_present { present := true, files := foldPut fs ps } true rfl]
    exact (writeAll_present ps (foldPut fs ps) 0).trans (by rw [Nat.zero_add])
  rw [hrun1]
  refine ⟨rfl, ?_, ?_⟩
  · rw [hrun2]
  · intro k
    rw [hrun2]
    have l1 := lookupFile_foldPut ps fs k
    have l2 := lookupFile_foldPut ps (foldPut fs ps) k
    cases h : lastAssign ps k with
    | some v =>
      rw [h] at l1 l2
      rw [l2, l1]
    | none =>
      rw [h] at l1 l2
      exact l2

/-- Witness: rerun_identical_when_dest_present at the one-worksheet source
and an existing empty destination. -/
theorem rerun_identical_witness :
    (srcOne.present = true ∧ srcOne.isDir = true ∧
      ({ present := true, files := [] } : Dest).present = true ∧
      gather srcOne = some [(sheetS, "b")]) ∧
    (normalize srcOne { present := true, files := [] } true).err = Option.none ∧
    (normalize srcOne
        (normalize srcOne { present := true, files := [] } true).dest true).err
      = Option.none ∧
    ∀ k, lookupFile (normalize srcOne
          (normalize srcOne { present := true, files := [] } true).dest
          true).dest.files k
        = lookupFile (normalize srcOne { present := true, files := [] } true).dest.files
          k :=
  ⟨⟨rfl, rfl, rfl, rfl⟩,
    rerun_identical_when_dest_present srcOne { present := true, files := [] }
      [(sheetS, "b")] rfl rfl rfl rfl⟩

end Analyzer
